import Mathlib

/-!
# Verification of the voice-to-text capture pipeline

Shallow embedding of the recording / muxing / transcription-merge code of the
`voice-to-text` repository, together with proofs of the specification's
testable properties.

* `src/recorder.py` — push-to-talk `AudioRecorder` (callback buffering, cap,
  start/stop lifecycle);
* `src/meeting_recorder.py` — screen+mic `MeetingRecorder` (save / encoder
  fallback, int16 gain saturation);
* `src/dev_test/recorder_v2.py` — region-based `MeetingRecorder` variant
  (region selector, three capture buffers, per-channel save);
* `src/dev_test/transcriber_v2.py` — `MeetingTranscriber` (same-speaker
  segment merge, delimited report writer);
* `src/main.py` — dictation stop path (minimum-duration gate).

Machine floats that the code only moves, compares or sums are embedded as
exact rationals (`ℚ`); int16/int32 sample arithmetic is embedded as `Int`
with explicit two's-complement wrap where the code converts dtypes.
-/

namespace VoiceToText

/-- Audio samples.  The recorder only copies samples around, so their
numeric type is irrelevant; we fix `Int`. -/
abbrev Sample := Int

/-- One capture chunk: the flat sample content of one callback's `indata`. -/
abbrev Chunk := List Sample

/-! ## `src/recorder.py` — `AudioRecorder` -/

/-- `MAX_BUFFER_SEC = 300` (recorder.py line 9). -/
def MAX_BUFFER_SEC : Nat := 300

/-- `SAMPLES_PER_CHUNK = 1024` (recorder.py line 10). -/
def SAMPLES_PER_CHUNK : Nat := 1024

/-- `AudioRecorder.SAMPLE_RATE = 16000` (recorder.py line 16). -/
def SAMPLE_RATE : Nat := 16000

/-- `max_chunks = int(SAMPLE_RATE * MAX_BUFFER_SEC / SAMPLES_PER_CHUNK)`
(recorder.py line 39).  Python truncates the positive float quotient, which
on naturals is floor division: `4687`. -/
def max_chunks : Nat := SAMPLE_RATE * MAX_BUFFER_SEC / SAMPLES_PER_CHUNK

/-- The Python slice `l[-n:]` for `n > 0`: the last `n` elements. -/
def takeLast (n : Nat) (l : List Chunk) : List Chunk :=
  l.drop (l.length - n)

/-- State of `AudioRecorder`: `is_recording`, `audio_buffer`, and whether
`self._stream` currently holds a stream object (`stream_open = false` models
`self._stream is None`). -/
structure AudioRecorder where
  is_recording : Bool
  audio_buffer : List Chunk
  stream_open : Bool
deriving DecidableEq

/-- `AudioRecorder.__init__` (recorder.py lines 20-25). -/
def AudioRecorder.init : AudioRecorder :=
  { is_recording := false, audio_buffer := [], stream_open := false }

/-- `AudioRecorder._audio_callback` (recorder.py lines 27-41): when recording,
append the chunk; if the buffer now exceeds `max_chunks`, keep only the last
`max_chunks` chunks (`self.audio_buffer[-max_chunks:]`). -/
def audio_callback (r : AudioRecorder) (indata : Chunk) : AudioRecorder :=
  if r.is_recording = false then r
  else if (r.audio_buffer ++ [indata]).length > max_chunks then
    { r with audio_buffer := takeLast max_chunks (r.audio_buffer ++ [indata]) }
  else
    { r with audio_buffer := r.audio_buffer ++ [indata] }

/-- `AudioRecorder.start_recording` (recorder.py lines 43-67).  The fallible
construction and start of `sd.InputStream` is abstracted by `open_ok`: on
success the stream is retained and `True` returned; on exception
`is_recording` is reset and `False` returned (`self._stream` is not touched
when the constructor raises). -/
def start_recording (r : AudioRecorder) (open_ok : Bool) : Bool × AudioRecorder :=
  if r.is_recording then (false, r)
  else
    let r1 := { r with audio_buffer := [], is_recording := true }
    if open_ok then (true, { r1 with stream_open := true })
    else (false, { r1 with is_recording := false })

/-- `AudioRecorder.stop_recording` (recorder.py lines 69-107): `None` if not
recording; otherwise stop/close/drop the stream, and return the
concatenation of the buffered chunks (`np.concatenate`, flattened — chunks
are mono so this is `List.join`), clearing the buffer; `None` if the buffer
is empty. -/
def stop_recording (r : AudioRecorder) : Option (List Sample) × AudioRecorder :=
  if r.is_recording = false then (none, r)
  else
    let r1 := { r with is_recording := false, stream_open := false }
    if r1.audio_buffer.isEmpty then (none, r1)
    else (some r1.audio_buffer.flatten, { r1 with audio_buffer := [] })

/-- `AudioRecorder.get_audio_duration` (recorder.py lines 109-111). -/
def get_audio_duration (audio : List Sample) : ℚ :=
  (audio.length : ℚ) / (SAMPLE_RATE : ℚ)

/-! ### Buffer-evolution lemmas for the callback -/

theorem max_chunks_eq : max_chunks = 4687 := by
  unfold max_chunks SAMPLE_RATE MAX_BUFFER_SEC SAMPLES_PER_CHUNK
  norm_num

theorem length_takeLast (n : Nat) (l : List Chunk) :
    (takeLast n l).length = l.length - (l.length - n) := by
  simp [takeLast]

theorem takeLast_of_le (n : Nat) (l : List Chunk) (h : l.length ≤ n) :
    takeLast n l = l := by
  simp [takeLast, Nat.sub_eq_zero_of_le h]

theorem takeLast_append_takeLast (n : Nat) (u v : List Chunk) :
    takeLast n (takeLast n u ++ v) = takeLast n (u ++ v) := by
  unfold takeLast
  rw [List.drop_append_eq_append_drop, List.drop_append_eq_append_drop, List.drop_drop]
  simp only [List.length_append, List.length_drop]
  congr 2 <;> omega

theorem audio_callback_is_recording (r : AudioRecorder) (c : Chunk) :
    (audio_callback r c).is_recording = r.is_recording := by
  unfold audio_callback
  split
  · rfl
  · split <;> rfl

theorem audio_callback_buffer (r : AudioRecorder) (c : Chunk)
    (h : r.is_recording = true) :
    (audio_callback r c).audio_buffer = takeLast max_chunks (r.audio_buffer ++ [c]) := by
  unfold audio_callback
  rw [if_neg (by simp [h])]
  split
  · simp
  · next hlen =>
    rw [takeLast_of_le _ _ (by omega)]

theorem foldl_audio_callback_buffer (cs : List Chunk) :
    ∀ r : AudioRecorder, r.is_recording = true →
      r.audio_buffer.length ≤ max_chunks →
      (List.foldl audio_callback r cs).audio_buffer
        = takeLast max_chunks (r.audio_buffer ++ cs) := by
  induction cs with
  | nil =>
    intro r h hlen
    simp [takeLast_of_le _ _ hlen]
  | cons c cs ih =>
    intro r h hlen
    have hrec := audio_callback_is_recording r c
    rw [h] at hrec
    have hbuf := audio_callback_buffer r c h
    have hlen' : (audio_callback r c).audio_buffer.length ≤ max_chunks := by
      rw [hbuf, length_takeLast]
      omega
    calc (List.foldl audio_callback r (c :: cs)).audio_buffer
        = (List.foldl audio_callback (audio_callback r c) cs).audio_buffer := rfl
      _ = takeLast max_chunks ((audio_callback r c).audio_buffer ++ cs) :=
          ih _ hrec hlen'
      _ = takeLast max_chunks (takeLast max_chunks (r.audio_buffer ++ [c]) ++ cs) := by
          rw [hbuf]
      _ = takeLast max_chunks (r.audio_buffer ++ [c] ++ cs) :=
          takeLast_append_takeLast _ _ _
      _ = takeLast max_chunks (r.audio_buffer ++ (c :: cs)) := by
          rw [List.append_assoc]; rfl

theorem foldl_audio_callback_is_recording (cs : List Chunk) :
    ∀ r : AudioRecorder,
      (List.foldl audio_callback r cs).is_recording = r.is_recording := by
  induction cs with
  | nil => intro r; rfl
  | cons c cs ih =>
    intro r
    calc (List.foldl audio_callback r (c :: cs)).is_recording
        = (List.foldl audio_callback (audio_callback r c) cs).is_recording := rfl
      _ = (audio_callback r c).is_recording := ih _
      _ = r.is_recording := audio_callback_is_recording r c

theorem sum_map_length (l : List Chunk) (L : Nat) (h : ∀ c ∈ l, c.length = L) :
    (l.map List.length).sum = l.length * L := by
  induction l with
  | nil => simp
  | cons c l ih =>
    have hc : c.length = L := h c (by simp)
    have hl : ∀ x ∈ l, x.length = L := fun x hx => h x (by simp [hx])
    simp [hc, ih hl, Nat.succ_mul, Nat.add_comm]

theorem start_recording_init :
    (start_recording AudioRecorder.init true).2
      = { is_recording := true, audio_buffer := [], stream_open := true } := by
  simp [start_recording, AudioRecorder.init]

/-- C1 (amended): provided the number `N` of appended chunks does not exceed
the RAM-protection cap `max_chunks = 4687` and is positive, the array
returned by `stop_recording` is the concatenation of the chunks in append
(FIFO) order and has exactly `N × L` samples when every chunk has `L`
samples. -/
theorem C1_stop_recording_concat (chunks : List Chunk) (L : Nat)
    (h1 : chunks ≠ []) (h2 : chunks.length ≤ max_chunks)
    (hL : ∀ c ∈ chunks, c.length = L) :
    (stop_recording (List.foldl audio_callback
        (start_recording AudioRecorder.init true).2 chunks)).1
      = some chunks.flatten ∧
    chunks.flatten.length = chunks.length * L := by
  rw [start_recording_init]
  have hrec := foldl_audio_callback_is_recording chunks
    { is_recording := true, audio_buffer := [], stream_open := true }
  have hbuf := foldl_audio_callback_buffer chunks
    { is_recording := true, audio_buffer := [], stream_open := true }
    rfl (by simp)
  simp only [List.nil_append] at hbuf
  rw [takeLast_of_le _ _ h2] at hbuf
  constructor
  · simp [stop_recording, hrec, hbuf, h1]
  · rw [List.length_flatten, sum_map_length chunks L hL]

/-- C1 (counterexample): appending `N = 4688` chunks of `L = 1` sample each
exceeds the cap, so the array returned by `stop_recording` has only `4687`
samples, not `N × L = 4688`. -/
theorem C1_counterexample :
    ((stop_recording (List.foldl audio_callback
        (start_recording AudioRecorder.init true).2
        (List.replicate 4688 [(0 : Sample)]))).1.map List.length
      = some 4687) ∧ 4687 ≠ 4688 * 1 := by
  rw [start_recording_init]
  have hrec := foldl_audio_callback_is_recording (List.replicate 4688 [(0 : Sample)])
    { is_recording := true, audio_buffer := [], stream_open := true }
  have hbuf := foldl_audio_callback_buffer (List.replicate 4688 [(0 : Sample)])
    { is_recording := true, audio_buffer := [], stream_open := true }
    rfl (by simp)
  simp only [List.nil_append] at hbuf
  have htake : takeLast max_chunks (List.replicate 4688 [(0 : Sample)])
      = List.replicate 4687 [(0 : Sample)] := by
    unfold takeLast
    rw [max_chunks_eq, List.length_replicate, List.drop_replicate]
  rw [htake] at hbuf
  constructor
  · rcases hX : List.foldl audio_callback
        { is_recording := true, audio_buffer := [], stream_open := true }
        (List.replicate 4688 [(0 : Sample)]) with ⟨rec, buf, st⟩
    rw [hX] at hrec hbuf
    dsimp only at hrec hbuf
    subst hrec hbuf
    show (some (List.replicate 4687 [(0 : Sample)]).flatten).map List.length = some 4687
    rw [Option.map_some', List.length_flatten, List.map_replicate, List.sum_replicate]
    norm_num
  · omega

/-- C1 witness: two chunks of two samples concatenate in FIFO order. -/
theorem C1_witness :
    (stop_recording (List.foldl audio_callback
        (start_recording AudioRecorder.init true).2
        [[(1 : Sample), 2], [3, 4]])).1
      = some ([[(1 : Sample), 2], [3, 4]] : List Chunk).flatten ∧
    ([[(1 : Sample), 2], [3, 4]] : List Chunk).flatten.length
      = ([[(1 : Sample), 2], [3, 4]] : List Chunk).length * 2 :=
  C1_stop_recording_concat [[1, 2], [3, 4]] 2 (by decide) (by decide) (by decide)

/-- C10: if opening the input stream fails, `start_recording` returns `False`
and the recorder ends not recording with no stream retained, and a later
`start_recording` attempt can still succeed. -/
theorem C10_start_recording_open_failure (r : AudioRecorder)
    (h1 : r.is_recording = false) (h2 : r.stream_open = false) :
    start_recording r false
      = (false, { is_recording := false, audio_buffer := [], stream_open := false }) ∧
    (start_recording (start_recording r false).2 true).1 = true := by
  have hstep : start_recording r false
      = (false, { is_recording := false, audio_buffer := [], stream_open := false }) := by
    simp [start_recording, h1, h2]
  refine ⟨hstep, ?_⟩
  rw [hstep]
  simp [start_recording]

/-- C10 witness: a fresh recorder whose stream fails to open. -/
theorem C10_witness :
    start_recording AudioRecorder.init false
      = (false, { is_recording := false, audio_buffer := [], stream_open := false }) ∧
    (start_recording (start_recording AudioRecorder.init false).2 true).1 = true :=
  C10_start_recording_open_failure AudioRecorder.init rfl rfl

/-! ## `src/main.py` — dictation stop path (`MainWindow._stop_recording`) -/

/-- The transcription-submission decision of `MainWindow._stop_recording`
(main.py lines 571-588): with `audio = recorder.stop_recording()`, return
whether a `TranscribeWorker` is started, i.e. whether `transcribe` is ever
invoked for this capture.  `None`/empty audio and durations below `0.4`
seconds are discarded. -/
def submits_transcription (audio : Option (List Sample)) : Bool :=
  match audio with
  | none => false
  | some a =>
    if a.length = 0 then false
    else if get_audio_duration a < (0.4 : ℚ) then false
    else true

/-- C5: a dictation capture that yields no audio, an empty buffer, or a
duration below 0.4 seconds never reaches the speech-to-text engine. -/
theorem C5_short_capture_not_transcribed :
    submits_transcription none = false ∧
    ∀ a : List Sample, get_audio_duration a < (0.4 : ℚ) →
      submits_transcription (some a) = false := by
  refine ⟨rfl, fun a h => ?_⟩
  show (if a.length = 0 then false
        else if get_audio_duration a < (0.4 : ℚ) then false else true) = false
  split <;> simp [h]

/-- C5 witness: a one-sample capture (duration 1/16000 s < 0.4 s) is
discarded. -/
theorem C5_witness : submits_transcription (some [(0 : Sample)]) = false :=
  C5_short_capture_not_transcribed.2 [(0 : Sample)]
    (by norm_num [get_audio_duration, SAMPLE_RATE])

/-! ## `src/meeting_recorder.py` — `MeetingRecorder` -/

/-- A captured BGR frame, abstracted to its pixel dimensions
(`frame.shape[:2]`); the save logic only inspects shape and presence. -/
structure Frame where
  height : Nat
  width : Nat
deriving DecidableEq

/-- State of `meeting_recorder.MeetingRecorder`: recording flag plus the
video-frame and microphone-chunk buffers (`_frames`, `_audio`). -/
structure MRecorder where
  is_recording : Bool
  frames : List Frame
  audio : List Chunk
deriving DecidableEq

/-- `MeetingRecorder.start` (meeting_recorder.py lines 90-105): refuse when
already recording; otherwise clear both buffers, launch the capture threads
and flip to recording. -/
def MRecorder.start (m : MRecorder) : Bool × MRecorder :=
  if m.is_recording then (false, m)
  else (true, { m with frames := [], audio := [], is_recording := true })

/-- The result dict of `MeetingRecorder._save`. -/
structure SaveOutcome where
  video : Option String
  base_name : Option String
deriving DecidableEq

/-- `MeetingRecorder._save` (meeting_recorder.py lines 116-182), filesystem
and encoder abstracted: `final_exists` is the value of
`final_video.exists()` after the encoder invocation, and `exit_ok` records
whether `subprocess.run` returned 0 without raising — the code only uses it
to set `proc = None`, which is never read afterwards.  Besides the result
dict, the list of media files produced by the save step is returned. -/
def MRecorder.save (m : MRecorder) (base : String) (exit_ok : Bool)
    (final_exists : Bool) : SaveOutcome × List String :=
  if m.frames.isEmpty then ({ video := none, base_name := none }, [])
  else
    let tmp_video := base ++ "_tmp.avi"
    let tmp_audio := base ++ "_tmp.wav"
    let final_video := base ++ ".mp4"
    let files := [tmp_video]
      ++ (if m.audio.isEmpty then [] else [tmp_audio])
      ++ (if final_exists then [final_video] else [])
    if final_exists then
      ({ video := some final_video, base_name := some base }, files)
    else
      ({ video := some tmp_video, base_name := some base }, files)

/-- Two's-complement wrap to signed 32-bit: `astype(np.int32)` semantics. -/
def int32_wrap (x : Int) : Int := (x + 2 ^ 31) % 2 ^ 32 - 2 ^ 31

/-- Two's-complement wrap to signed 16-bit: `astype(np.int16)` semantics. -/
def int16_wrap (x : Int) : Int := (x + 2 ^ 15) % 2 ^ 16 - 2 ^ 15

/-- The per-sample microphone amplification of `MeetingRecorder._save`
(meeting_recorder.py line 135):
`np.clip(arr.astype(np.int32) * 2, -32768, 32767).astype(np.int16)`. -/
def saved_sample (x : Int) : Int :=
  int16_wrap (max (-32768) (min 32767 (int32_wrap x * 2)))

/-! ## `src/dev_test/recorder_v2.py` — region selector and `MeetingRecorder` v2 -/

/-- A capture region `{left, top, width, height}` in virtual-screen pixels. -/
structure Region where
  left : Int
  top : Int
  width : Int
  height : Int
deriving DecidableEq

/-- `ScreenRegionSelector.mouseReleaseEvent` (recorder_v2.py lines 145-167):
the selection produced by releasing the mouse over the normalized rectangle
`rect`, given the virtual-screen offsets.  A rectangle whose width or height
is below the 50-pixel minimum produces no selection (the selector stays
open), and the callback receives a region only when a selection exists. -/
def mouseReleaseSelection (offx offy : Int) (rect : Region) : Option Region :=
  if 50 ≤ rect.width ∧ 50 ≤ rect.height then
    some { left := offx + rect.left, top := offy + rect.top,
           width := rect.width, height := rect.height }
  else none

/-- State of `recorder_v2.MeetingRecorder`: recording flag, the three capture
buffers, and the snapshot of capture parameters. -/
structure RecorderV2 where
  is_recording : Bool
  video_frames : List Frame
  mic_audio : List Chunk
  sys_audio : List Chunk
  monitor : Option Region
  mic_device : Option Nat
  record_system : Bool
deriving DecidableEq

/-- `MeetingRecorder.start` (recorder_v2.py lines 474-520): refuse when
already recording or when `region` is `None` (`if not region`); otherwise
clear the three buffers, store the capture parameters, flip to recording and
launch the capture threads.  No region-size check is performed here. -/
def RecorderV2.start (r : RecorderV2) (region : Option Region)
    (mic_device : Option Nat) (record_system : Bool) : Bool × RecorderV2 :=
  if r.is_recording then (false, r)
  else
    match region with
    | none => (false, r)
    | some reg =>
        (true, { r with
                 video_frames := [], mic_audio := [], sys_audio := [],
                 monitor := some reg, mic_device := mic_device,
                 record_system := record_system, is_recording := true })

/-- The result dict of `MeetingRecorder._save_recording`. -/
structure V2SaveResult where
  video : Option String
  mic_audio : Option String
  sys_audio : Option String
  base_name : String
deriving DecidableEq

/-- `MeetingRecorder._save_recording` (recorder_v2.py lines 542-595): writes
the video only when frames exist, and each channel's WAV only when that
channel's buffer is non-empty; there is no all-or-nothing abort.  Returns
the result dict together with the files written. -/
def RecorderV2.save_recording (r : RecorderV2) (base : String) :
    V2SaveResult × List String :=
  let video_path := base ++ ".avi"
  let mic_path := base ++ "_mic.wav"
  let sys_path := base ++ "_sys.wav"
  let res0 : V2SaveResult :=
    { video := none, mic_audio := none, sys_audio := none, base_name := base }
  let step1 :=
    if r.video_frames.isEmpty then (res0, ([] : List String))
    else ({ res0 with video := some video_path }, [video_path])
  let step2 :=
    if r.mic_audio.isEmpty then step1
    else ({ step1.1 with mic_audio := some mic_path }, step1.2 ++ [mic_path])
  if r.sys_audio.isEmpty then step2
  else ({ step2.1 with sys_audio := some sys_path }, step2.2 ++ [sys_path])

/-! ### Claims about the meeting recorders -/

/-- C6: calling `start()` while a recording is already in progress returns
`False` and leaves all buffers and the whole state unchanged, in both the
region recorder (v2) and the screen+mic recorder. -/
theorem C6_start_while_recording (r : RecorderV2) (m : MRecorder)
    (region : Option Region) (mic_device : Option Nat) (record_system : Bool)
    (hr : r.is_recording = true) (hm : m.is_recording = true) :
    RecorderV2.start r region mic_device record_system = (false, r) ∧
    MRecorder.start m = (false, m) := by
  constructor
  · unfold RecorderV2.start
    rw [if_pos hr]
  · unfold MRecorder.start
    rw [if_pos hm]

/-- C6 witness: concrete recorders mid-recording refuse a second start. -/
theorem C6_witness :
    RecorderV2.start
      { is_recording := true, video_frames := [⟨2, 2⟩], mic_audio := [[1]],
        sys_audio := [], monitor := none, mic_device := none, record_system := true }
      (some { left := 0, top := 0, width := 100, height := 100 }) none true
      = (false,
        { is_recording := true, video_frames := [⟨2, 2⟩], mic_audio := [[1]],
          sys_audio := [], monitor := none, mic_device := none, record_system := true }) ∧
    MRecorder.start { is_recording := true, frames := [⟨2, 2⟩], audio := [[1]] }
      = (false, { is_recording := true, frames := [⟨2, 2⟩], audio := [[1]] }) :=
  C6_start_while_recording _ _ _ _ _ rfl rfl

/-- C2 (counterexample): `start()` with a 40×40 region is not refused — it
returns `True` and recording begins. -/
theorem C2_counterexample :
    (RecorderV2.start
      { is_recording := false, video_frames := [], mic_audio := [], sys_audio := [],
        monitor := none, mic_device := none, record_system := true }
      (some { left := 0, top := 0, width := 40, height := 40 }) none true).1 = true ∧
    (RecorderV2.start
      { is_recording := false, video_frames := [], mic_audio := [], sys_audio := [],
        monitor := none, mic_device := none, record_system := true }
      (some { left := 0, top := 0, width := 40, height := 40 }) none true).2.is_recording
      = true := by
  constructor <;> rfl

/-- C2 (amended): the 50-pixel minimum is enforced by the region selector,
not by `start()`: releasing a rectangle whose width or height is below 50
produces no selection (so no region reaches the recorder), while `start()`
itself accepts a non-null region of any size and begins recording. -/
theorem C2_minimum_enforced_by_selector :
    (∀ (offx offy : Int) (rect : Region), rect.width < 50 ∨ rect.height < 50 →
      mouseReleaseSelection offx offy rect = none) ∧
    (∀ (r : RecorderV2) (reg : Region) (md : Option Nat) (rs : Bool),
      r.is_recording = false →
      (RecorderV2.start r (some reg) md rs).1 = true) := by
  constructor
  · intro offx offy rect h
    unfold mouseReleaseSelection
    rw [if_neg (by omega)]
  · intro r reg md rs h
    unfold RecorderV2.start
    rw [if_neg (by simp [h])]

/-- C2 witness: a 40×40 rectangle yields no selection, yet `start()` with a
40×40 region succeeds. -/
theorem C2_witness :
    mouseReleaseSelection 0 0 { left := 0, top := 0, width := 40, height := 40 }
      = none ∧
    (RecorderV2.start
      { is_recording := false, video_frames := [], mic_audio := [], sys_audio := [],
        monitor := none, mic_device := none, record_system := true }
      (some { left := 0, top := 0, width := 40, height := 40 }) none true).1 = true :=
  ⟨C2_minimum_enforced_by_selector.1 0 0 _ (Or.inl (by norm_num)),
   C2_minimum_enforced_by_selector.2 _ _ none true rfl⟩

/-- C7 (counterexample): in the v2 recorder, a stop with an empty frame
buffer but non-empty microphone buffer still produces a microphone WAV: its
path is non-`None` and the file is written. -/
theorem C7_counterexample :
    ((RecorderV2.save_recording
      { is_recording := false, video_frames := [], mic_audio := [[1]], sys_audio := [],
        monitor := none, mic_device := none, record_system := true }
      "Meeting_X").1.mic_audio = some "Meeting_X_mic.wav") ∧
    "Meeting_X_mic.wav" ∈ (RecorderV2.save_recording
      { is_recording := false, video_frames := [], mic_audio := [[1]], sys_audio := [],
        monitor := none, mic_device := none, record_system := true }
      "Meeting_X").2 := by
  constructor
  · rfl
  · simp [RecorderV2.save_recording]

/-- C7 (amended): in `meeting_recorder.MeetingRecorder._save` an empty frame
buffer aborts the save: every path of the result is `None` and no file is
produced.  (The dev_test variant `_save_recording` instead still writes the
per-channel WAVs when their buffers are non-empty.) -/
theorem C7_empty_frames_abort (m : MRecorder) (base : String)
    (exit_ok final_exists : Bool) (h : m.frames = []) :
    MRecorder.save m base exit_ok final_exists
      = ({ video := none, base_name := none }, []) := by
  unfold MRecorder.save
  rw [if_pos (by simp [h])]

/-- C7 witness: a stop that captured audio but no frames yields the all-`None`
result with no files. -/
theorem C7_witness :
    MRecorder.save { is_recording := false, frames := [], audio := [[1]] }
      "Meeting_X" true true
      = ({ video := none, base_name := none }, []) :=
  C7_empty_frames_abort _ _ _ _ rfl

/-- C4 (counterexample): when the encoder exits nonzero but the final output
file nevertheless exists (e.g. a partial write), `_save` returns the
combined `.mp4` path, not the uncombined raw container. -/
theorem C4_counterexample :
    (MRecorder.save { is_recording := false, frames := [⟨2, 2⟩], audio := [] }
        "Meeting_X" false true).1.video = some "Meeting_X.mp4" ∧
    some "Meeting_X.mp4" ≠ some "Meeting_X_tmp.avi" := by
  constructor
  · rfl
  · decide

/-- C4 (amended): whenever frames were captured, `_save` returns a non-null
video path and never raises; when the final output file is missing after the
encoder invocation (nonzero exit, exception, or no output produced), the
returned path is the uncombined raw container `<base>_tmp.avi`. -/
theorem C4_encoder_failure_fallback (m : MRecorder) (base : String)
    (exit_ok final_exists : Bool) (h : m.frames ≠ []) :
    (MRecorder.save m base exit_ok false).1.video = some (base ++ "_tmp.avi") ∧
    (MRecorder.save m base exit_ok final_exists).1.video ≠ none := by
  have hne : m.frames.isEmpty = false := by simp [h]
  constructor
  · unfold MRecorder.save
    rw [if_neg (by simp [hne])]
    simp
  · unfold MRecorder.save
    rw [if_neg (by simp [hne])]
    dsimp only
    split <;> simp

/-- C4 witness: one captured frame, empty audio, encoder failing with no
output: the raw container path is returned and is non-null. -/
theorem C4_witness :
    (MRecorder.save { is_recording := false, frames := [⟨2, 2⟩], audio := [] }
        "Meeting_X" false false).1.video = some ("Meeting_X" ++ "_tmp.avi") ∧
    (MRecorder.save { is_recording := false, frames := [⟨2, 2⟩], audio := [] }
        "Meeting_X" false false).1.video ≠ none :=
  C4_encoder_failure_fallback _ "Meeting_X" false false (by decide)

/-- C9: for every int16 microphone sample, the sample written to the WAV is
`2·x` saturated to `[-32768, 32767]` — the int32 intermediate never wraps. -/
theorem C9_gain_saturates (x : Int) (h1 : -32768 ≤ x) (h2 : x ≤ 32767) :
    saved_sample x = max (-32768) (min 32767 (2 * x)) ∧
    -32768 ≤ saved_sample x ∧ saved_sample x ≤ 32767 := by
  unfold saved_sample int32_wrap int16_wrap
  omega

/-- C9 witness: the sample `20000` is amplified to the saturated `32767`. -/
theorem C9_witness :
    saved_sample 20000 = max (-32768) (min 32767 (2 * 20000)) ∧
    -32768 ≤ saved_sample 20000 ∧ saved_sample 20000 ≤ 32767 :=
  C9_gain_saturates 20000 (by norm_num) (by norm_num)

/-! ## `src/dev_test/transcriber_v2.py` — `MeetingTranscriber` -/

/-- A speaker-tagged transcript segment `{start, end, text, speaker}`.
Times are exact rationals: the merge pass only compares and copies them. -/
structure Seg where
  start : ℚ
  «end» : ℚ
  text : String
  speaker : String
deriving DecidableEq

/-- The merge test of `_merge_segments` (transcriber_v2.py lines 168-169):
`seg["speaker"] == current["speaker"] and seg["start"] - current["end"] < gap_threshold`. -/
def runStep (g : ℚ) (current seg : Seg) : Bool :=
  decide (seg.speaker = current.speaker ∧ seg.start - current.«end» < g)

/-- The loop of `MeetingTranscriber._merge_segments` (transcriber_v2.py
lines 163-177): `current` accumulates the run in progress, extending its
`end` and appending text with a separating space, and is emitted when the
next segment does not continue the run. -/
def merge_loop (g : ℚ) (current : Seg) : List Seg → List Seg
  | [] => [current]
  | seg :: rest =>
    if runStep g current seg then
      merge_loop g
        { current with «end» := seg.«end», text := current.text ++ " " ++ seg.text } rest
    else
      current :: merge_loop g seg rest

/-- `MeetingTranscriber._merge_segments` (transcriber_v2.py lines 156-177);
`transcribe_meeting` calls it with the default `gap_threshold = 1.0`. -/
def merge_segments (segments : List Seg) (g : ℚ) : List Seg :=
  match segments with
  | [] => []
  | s :: rest => merge_loop g s rest

/-- Spec-side (§4.5 step 3): split a pooled list into its maximal runs of
adjacent segments related by `runStep` (same speaker, gap below threshold). -/
def runs (g : ℚ) : List Seg → List (List Seg)
  | [] => []
  | [a] => [[a]]
  | a :: b :: rest =>
    match runs g (b :: rest) with
    | [] => [[a]]
    | r :: rs => if runStep g a b then (a :: r) :: rs else [a] :: r :: rs

/-- Texts of a run joined by single spaces. -/
def joinSpace : List String → String
  | [] => ""
  | [t] => t
  | t :: t' :: ts => t ++ " " ++ joinSpace (t' :: ts)

/-- Spec-side: one merged segment per run — the start and speaker of the
first segment, the end of the last segment, and the texts joined by single
spaces.  (`runs` never produces an empty run; the `[]` case is junk.) -/
def collapse : List Seg → Seg
  | [] => { start := 0, «end» := 0, text := "", speaker := "" }
  | a :: r =>
    { start := a.start, «end» := ((a :: r).getLast (List.cons_ne_nil a r)).«end»,
      text := joinSpace ((a :: r).map Seg.text), speaker := a.speaker }

theorem collapse_singleton (a : Seg) : collapse [a] = a := by
  simp [collapse, joinSpace]

theorem joinSpace_merge (a b : String) (ts : List String) :
    joinSpace ((a ++ " " ++ b) :: ts) = joinSpace (a :: b :: ts) := by
  cases ts with
  | nil => simp [joinSpace]
  | cons t ts =>
    show (a ++ " " ++ b) ++ " " ++ joinSpace (t :: ts)
        = a ++ " " ++ (b ++ " " ++ joinSpace (t :: ts))
    simp [String.append_assoc]

theorem runs_cons (g : ℚ) (l : List Seg) :
    ∀ a : Seg, ∃ s rs, runs g (a :: l) = (a :: s) :: rs := by
  induction l with
  | nil => intro a; exact ⟨[], [], rfl⟩
  | cons b rest ih =>
    intro a
    obtain ⟨s, rs, h⟩ := ih b
    by_cases hs : runStep g a b = true
    · exact ⟨b :: s, rs, by simp [runs, h, hs]⟩
    · refine ⟨[], (b :: s) :: rs, ?_⟩
      simp only [runs, h]
      rw [if_neg (by simp [hs])]

theorem runStep_congr (g : ℚ) (x b c : Seg) (hsp : x.speaker = b.speaker)
    (hend : x.«end» = b.«end») : runStep g x c = runStep g b c := by
  unfold runStep
  rw [hsp, hend]

theorem runs_congr_head (g : ℚ) (x b : Seg) (hsp : x.speaker = b.speaker)
    (hend : x.«end» = b.«end») (l : List Seg) :
    ∃ s rs, runs g (b :: l) = (b :: s) :: rs ∧ runs g (x :: l) = (x :: s) :: rs := by
  cases l with
  | nil => exact ⟨[], [], rfl, rfl⟩
  | cons c rest =>
    obtain ⟨s, rs, h⟩ := runs_cons g rest c
    have hstep := runStep_congr g x b c hsp hend
    by_cases hs : runStep g b c = true
    · exact ⟨c :: s, rs, by simp [runs, h, hs], by simp [runs, h, hstep, hs]⟩
    · refine ⟨[], (c :: s) :: rs, ?_, ?_⟩
      · simp only [runs, h]
        rw [if_neg (by simp [hs])]
      · simp only [runs, h]
        rw [if_neg (by simp [hstep, hs])]

theorem collapse_absorb (a b : Seg) (s : List Seg) :
    collapse ({ a with «end» := b.«end», text := a.text ++ " " ++ b.text } :: s)
      = collapse (a :: b :: s) := by
  cases s with
  | nil => simp [collapse, joinSpace, List.getLast]
  | cons c s =>
    show ({ start := a.start,
            «end» := ((c :: s).getLast (List.cons_ne_nil _ _)).«end»,
            text := joinSpace ((a.text ++ " " ++ b.text) :: (c :: s).map Seg.text),
            speaker := a.speaker } : Seg)
        = { start := a.start,
            «end» := ((c :: s).getLast (List.cons_ne_nil _ _)).«end»,
            text := joinSpace (a.text :: b.text :: (c :: s).map Seg.text),
            speaker := a.speaker }
    rw [joinSpace_merge]

theorem merge_loop_eq_runs (g : ℚ) (l : List Seg) :
    ∀ a : Seg, merge_loop g a l = (runs g (a :: l)).map collapse := by
  induction l with
  | nil =>
    intro a
    simp [merge_loop, runs, collapse_singleton]
  | cons b rest ih =>
    intro a
    by_cases hs : runStep g a b = true
    · have hsp : ({ a with «end» := b.«end», text := a.text ++ " " ++ b.text } : Seg).speaker
          = b.speaker := by
        have := of_decide_eq_true hs
        exact this.1.symm
      obtain ⟨s, rs, hb, hx⟩ := runs_congr_head g
        { a with «end» := b.«end», text := a.text ++ " " ++ b.text } b hsp rfl rest
      have lhs : merge_loop g a (b :: rest)
          = merge_loop g { a with «end» := b.«end», text := a.text ++ " " ++ b.text } rest := by
        simp [merge_loop, hs]
      rw [lhs, ih, hx]
      have rhs : runs g (a :: b :: rest) = (a :: b :: s) :: rs := by
        simp [runs, hb, hs]
      rw [rhs]
      simp only [List.map_cons]
      rw [collapse_absorb a b s]
    · obtain ⟨s, rs, hb⟩ := runs_cons g rest b
      have lhs : merge_loop g a (b :: rest) = a :: merge_loop g b rest := by
        simp [merge_loop, hs]
      have rhs : runs g (a :: b :: rest) = [a] :: (b :: s) :: rs := by
        simp only [runs, hb]
        rw [if_neg (by simp [hs])]
      rw [lhs, ih, hb, rhs]
      simp [collapse_singleton]

/-- C3: the merge pass equals the spec-side description — it collapses each
maximal run of adjacent same-speaker segments with gaps below the 1-second
threshold into one segment keeping the first start, taking the last end and
joining the texts with single spaces; in particular the same-speaker
segments `{0,2,"Hello"}` and `{2.4,4,"world"}` merge into
`{0,4,"Hello world"}`. -/
theorem C3_merge_adjacent_same_speaker :
    (∀ segments : List Seg,
      merge_segments segments 1 = (runs 1 segments).map collapse) ∧
    merge_segments
      [{ start := 0, «end» := 2, text := "Hello", speaker := "Я" },
       { start := 2.4, «end» := 4, text := "world", speaker := "Я" }] 1
      = [{ start := 0, «end» := 4, text := "Hello world", speaker := "Я" }] := by
  constructor
  · intro segments
    cases segments with
    | nil => rfl
    | cons s rest => exact merge_loop_eq_runs 1 rest s
  · norm_num [merge_segments, merge_loop, runStep]
    decide

/-! ### `save_report` (transcriber_v2.py lines 190-238) and the report
round trip -/

/-- Report text as a character sequence (the file is written UTF-8). -/
abbrev Text := List Char

/-- Split a character sequence at newline characters; always returns at
least one (possibly empty) line. -/
def splitNL : Text → List Text
  | [] => [[]]
  | c :: rest =>
    if c = '\n' then [] :: splitNL rest
    else
      match splitNL rest with
      | [] => [[c]]
      | h :: t => (c :: h) :: t

/-- Python's `"\n".join(lines)`. -/
def joinNL : List Text → Text
  | [] => []
  | [l] => l
  | l :: l' :: ls => l ++ '\n' :: joinNL (l' :: ls)

theorem splitNL_ne_nil (l : Text) : splitNL l ≠ [] := by
  cases l with
  | nil => simp [splitNL]
  | cons c rest =>
    unfold splitNL
    split
    · simp
    · split <;> simp

theorem splitNL_no_newline (l : Text) (h : '\n' ∉ l) : splitNL l = [l] := by
  induction l with
  | nil => rfl
  | cons c rest ih =>
    have hc : ¬(c = '\n') := fun hc => h (by simp [hc])
    have hr : '\n' ∉ rest := fun hr => h (by simp [hr])
    unfold splitNL
    rw [if_neg hc, ih hr]

theorem splitNL_cons_newline (rest : Text) :
    splitNL ('\n' :: rest) = [] :: splitNL rest := by
  conv_lhs => rw [splitNL]
  rw [if_pos rfl]

theorem splitNL_cons_of (c : Char) (rest : Text) (h : Text) (t : List Text)
    (hc : ¬c = '\n') (hr : splitNL rest = h :: t) :
    splitNL (c :: rest) = (c :: h) :: t := by
  conv_lhs => rw [splitNL]
  rw [if_neg hc, hr]

theorem splitNL_dest (l : Text) : ∃ h t, splitNL l = h :: t := by
  cases hsx : splitNL l with
  | nil => exact absurd hsx (splitNL_ne_nil l)
  | cons h t => exact ⟨h, t, rfl⟩

theorem splitNL_append (x y : Text) :
    splitNL (x ++ '\n' :: y) = splitNL x ++ splitNL y := by
  induction x with
  | nil =>
    show splitNL ('\n' :: y) = [[]] ++ splitNL y
    rw [splitNL_cons_newline]
    rfl
  | cons c x ih =>
    by_cases hc : c = '\n'
    · subst hc
      rw [List.cons_append, splitNL_cons_newline, splitNL_cons_newline, ih]
      rfl
    · obtain ⟨h, t, hx⟩ := splitNL_dest x
      have h2 : splitNL (x ++ '\n' :: y) = h :: (t ++ splitNL y) := by
        rw [ih, hx]
        rfl
      rw [List.cons_append, splitNL_cons_of c _ _ _ hc h2,
        splitNL_cons_of c _ _ _ hc hx]
      rfl

theorem joinNL_cons (l : Text) (ls : List Text) (h : ls ≠ []) :
    joinNL (l :: ls) = l ++ '\n' :: joinNL ls := by
  cases ls with
  | nil => exact absurd rfl h
  | cons l' ls => rfl

theorem joinNL_splitNL (l : Text) : joinNL (splitNL l) = l := by
  induction l with
  | nil => rfl
  | cons c rest ih =>
    by_cases hc : c = '\n'
    · subst hc
      rw [splitNL_cons_newline, joinNL_cons _ _ (splitNL_ne_nil rest), ih]
      rfl
    · obtain ⟨h, t, hx⟩ := splitNL_dest rest
      rw [splitNL_cons_of c rest h t hc hx]
      rw [hx] at ih
      cases t with
      | nil =>
        show c :: h = c :: rest
        rw [show h = rest from ih]
      | cons t0 t' =>
        rw [joinNL_cons _ _ (by simp)]
        rw [joinNL_cons _ _ (by simp)] at ih
        show c :: (h ++ '\n' :: joinNL (t0 :: t')) = c :: rest
        rw [ih]

theorem splitNL_joinNL (ls : List Text) (h : ls ≠ []) :
    splitNL (joinNL ls) = ls.flatMap splitNL := by
  induction ls with
  | nil => exact absurd rfl h
  | cons l ls ih =>
    cases ls with
    | nil => simp [joinNL, List.flatMap]
    | cons l' ls' =>
      rw [joinNL_cons _ _ (by simp), splitNL_append, ih (by simp)]
      simp [List.flatMap_cons]

theorem flatMap_splitNL_of_no_newline (ls : List Text)
    (h : ∀ l ∈ ls, '\n' ∉ l) : ls.flatMap splitNL = ls := by
  induction ls with
  | nil => rfl
  | cons l ls ih =>
    rw [List.flatMap_cons, splitNL_no_newline l (h l (by simp)),
      ih (fun x hx => h x (by simp [hx]))]
    rfl

/-- Decimal digit characters, as produced by Python's `str` of a length. -/
def digitChar : Nat → Char
  | 0 => '0'
  | 1 => '1'
  | 2 => '2'
  | 3 => '3'
  | 4 => '4'
  | 5 => '5'
  | 6 => '6'
  | 7 => '7'
  | 8 => '8'
  | _ => '9'

/-- Python `str(n)` for a natural number: its decimal digits. -/
def natChars (n : Nat) : Text :=
  if n < 10 then [digitChar n]
  else natChars (n / 10) ++ [digitChar (n % 10)]
decreasing_by omega

theorem digitChar_ne_newline (d : Nat) : digitChar d ≠ '\n' := by
  unfold digitChar
  split <;> decide

theorem natChars_no_newline (n : Nat) : '\n' ∉ natChars n := by
  induction n using Nat.strong_induction_on with
  | _ n ih =>
    unfold natChars
    split
    · intro h
      rw [List.mem_singleton] at h
      exact digitChar_ne_newline n h.symm
    · intro h
      rw [List.mem_append] at h
      rcases h with h | h
      · exact ih (n / 10) (by omega) h
      · rw [List.mem_singleton] at h
        exact digitChar_ne_newline (n % 10) h.symm

/-- The transcript dict produced by `transcribe_meeting`:
`{"segments": [...], "full_text": "..."}`. -/
structure Transcript where
  segments : List Seg
  full_text : Text

/-- The `report_lines` list of `save_report` (transcriber_v2.py lines
216-230), with the current date a parameter: 8 header lines, the full text
body, and 4 trailer lines. -/
def report_lines (date : Text) (t : Transcript) : List Text :=
  [List.replicate 60 '=',
   "📋 ОТЧЁТ О ВСТРЕЧЕ".toList,
   "📅 Дата: ".toList ++ date,
   List.replicate 60 '=',
   [],
   "📝 ТРАНСКРИПЦИЯ:".toList,
   List.replicate 40 '-',
   [],
   t.full_text,
   [],
   List.replicate 40 '-',
   "📊 Всего сегментов: ".toList ++ natChars t.segments.length,
   List.replicate 60 '=']

/-- `save_report` (transcriber_v2.py lines 190-238): the report text written
to the file is `"\n".join(report_lines)`. -/
def save_report_text (date : Text) (t : Transcript) : Text :=
  joinNL (report_lines date t)

/-- Modelled from the spec: src contains no reader for the report file —
§4.5 "Persistence" fixes the delimited plain-text format (banner header,
full-text body, trailer), so the body of a report is the text between the 8
header lines and the 4 trailer lines. -/
def read_report_body (report : Text) : Text :=
  joinNL (((splitNL report).drop 8).take (((splitNL report).drop 8).length - 4))

theorem read_report_of_parts (hs : List Text) (body : Text) (ts : List Text)
    (hh : ∀ l ∈ hs, '\n' ∉ l) (ht : ∀ l ∈ ts, '\n' ∉ l)
    (h8 : hs.length = 8) (h4 : ts.length = 4) :
    read_report_body (joinNL (hs ++ body :: ts)) = body := by
  unfold read_report_body
  rw [splitNL_joinNL _ (by simp)]
  rw [List.flatMap_append, List.flatMap_cons, flatMap_splitNL_of_no_newline hs hh,
    flatMap_splitNL_of_no_newline ts ht]
  rw [← h8, List.drop_left]
  have hlen : (splitNL body ++ ts).length - 4 = (splitNL body).length := by
    rw [List.length_append, h4, Nat.add_sub_cancel]
  rw [hlen, List.take_left]
  exact joinNL_splitNL body

theorem not_newline_mem_replicate (n : Nat) (c : Char) (hc : c ≠ '\n') :
    '\n' ∉ List.replicate n c :=
  fun h => hc (List.eq_of_mem_replicate h).symm

/-- C8: writing a transcript with `save_report` and then reading the report
file back recovers the transcript's `full_text` body byte-for-byte (the
date printed in the header contains no newline). -/
theorem C8_report_roundtrip (date : Text) (t : Transcript)
    (hd : '\n' ∉ date) :
    read_report_body (save_report_text date t) = t.full_text := by
  unfold save_report_text report_lines
  exact read_report_of_parts
    [List.replicate 60 '=', "📋 ОТЧЁТ О ВСТРЕЧЕ".toList,
     "📅 Дата: ".toList ++ date, List.replicate 60 '=', [],
     "📝 ТРАНСКРИПЦИЯ:".toList, List.replicate 40 '-', []]
    t.full_text
    [[], List.replicate 40 '-',
     "📊 Всего сегментов: ".toList ++ natChars t.segments.length,
     List.replicate 60 '=']
    (by
      intro l hl
      simp only [List.mem_cons, List.not_mem_nil, or_false] at hl
      rcases hl with rfl | rfl | rfl | rfl | rfl | rfl | rfl | rfl
      · exact not_newline_mem_replicate _ _ (by decide)
      · decide
      · intro hmem
        rcases List.mem_append.mp hmem with h | h
        · exact absurd h (by decide)
        · exact hd h
      · exact not_newline_mem_replicate _ _ (by decide)
      · exact List.not_mem_nil _
      · decide
      · exact not_newline_mem_replicate _ _ (by decide)
      · exact List.not_mem_nil _)
    (by
      intro l hl
      simp only [List.mem_cons, List.not_mem_nil, or_false] at hl
      rcases hl with rfl | rfl | rfl | rfl
      · exact List.not_mem_nil _
      · exact not_newline_mem_replicate _ _ (by decide)
      · intro hmem
        rcases List.mem_append.mp hmem with h | h
        · exact absurd h (by decide)
        · exact natChars_no_newline _ h
      · exact not_newline_mem_replicate _ _ (by decide))
    rfl rfl

/-- C8 witness: a concrete transcript round-trips through the report file. -/
theorem C8_witness :
    read_report_body (save_report_text ("2026-10-12 00:00".toList)
      { segments := [], full_text := "Привет\nвсем".toList })
      = "Привет\nвсем".toList :=
  C8_report_roundtrip ("2026-10-12 00:00".toList)
    { segments := [], full_text := "Привет\nвсем".toList } (by decide)

end VoiceToText
